import Mathlib

/-!
Verification of the atomically reference-counted shared-ownership primitive
in `src/arc-rs` (files `arc_weak.rs` and `arc_only.rs`).

The embedding is sequential: each public operation of the Rust code is a
function on the shared allocation record (`ArcData`).  Atomic
read-modify-writes become plain state updates; a compare-and-swap whose
loaded value is not raced on by another thread succeeds on its first
attempt, so each CAS loop is embedded as the branch structure of a single
iteration.  Machine integers (`usize`) are embedded as `Nat` with explicit
reduction modulo 2^64 wherever the Rust operation can wrap
(`fetch_add`/`fetch_sub`).  `std::process::abort()` becomes the `abort`
outcome; the busy-wait on the `get_mut` sentinel becomes the `spin`
outcome (no state change, the loop would retry).

Destruction of the payload (`ManuallyDrop::drop`) and release of the
allocation (`drop(Box::from_raw(..))`) are observable events; the record
carries two instrumentation counters (`destroy_count`, `release_count`)
that count how many times each event has fired, so "exactly once" claims
become statements about these counters.
-/

namespace ArcRs

/-- `usize::MAX` on a 64-bit target: 2^64 - 1. -/
def USIZE_MAX : Nat := 18446744073709551615

/-- 2^64, the modulus of `usize` arithmetic. -/
def USIZE_MOD : Nat := 18446744073709551616

/-- Outcome of an operation of the Rust code: a normal result, a process
abort (`std::process::abort()`), or a busy-wait iteration that observes the
sentinel and retries without changing any state (`spin`). -/
inductive Res (α : Type) where
  | ok : α → Res α
  | abort : Res α
  | spin : Res α
deriving Repr, DecidableEq

namespace ArcWeak

/-- The allocation record of `arc_weak.rs`:
`struct ArcData<T> { data: ManuallyDrop<T>, strong_count: AtomicUsize,
weak_count: AtomicUsize }`.  The payload type `T` is modelled as `Nat`.
`destroy_count` and `release_count` are instrumentation: the number of
times `ManuallyDrop::drop(&mut ..data)` respectively
`drop(Box::from_raw(..))` have run on this record. -/
structure ArcData where
  data : Nat
  strong_count : Nat
  weak_count : Nat
  destroy_count : Nat
  release_count : Nat
deriving Repr, DecidableEq

/-- `Arc::new(t)`: fresh record with both counters 1. -/
def Arc.new (t : Nat) : ArcData :=
  { data := t, strong_count := 1, weak_count := 1
    destroy_count := 0, release_count := 0 }

/-- `impl Clone for Arc` (arc_weak.rs:125-134): `fetch_add(1, Relaxed)` on
`strong_count` returns the pre-increment value; if that value exceeds
`usize::MAX / 2` the process aborts, otherwise a new handle to the same
record is returned. -/
def Arc.clone (s : ArcData) : Res ArcData :=
  let old := s.strong_count
  let s1 := { s with strong_count := (s.strong_count + 1) % USIZE_MOD }
  if old > USIZE_MAX / 2 then Res.abort else Res.ok s1

/-- `Arc::downgrade` (arc_weak.rs:47-73): busy-loop while
`weak_count == usize::MAX` (sentinel held by `get_mut`); abort if the
observed value exceeds `usize::MAX / 2`; otherwise the CAS installs
`weak_count + 1` and a new `Weak` to the same record is returned. -/
def Arc.downgrade (s : ArcData) : Res ArcData :=
  if s.weak_count = USIZE_MAX then Res.spin
  else if s.weak_count > USIZE_MAX / 2 then Res.abort
  else Res.ok { s with weak_count := (s.weak_count + 1) % USIZE_MOD }

/-- First step of `Arc::get_mut` (arc_weak.rs:85-92): the
`compare_exchange(1, usize::MAX, Acquire, Relaxed)` on `weak_count`.
`some` is the success case (sentinel installed), `none` the `is_err()`
case where `get_mut` returns `None` with no state change. -/
def Arc.get_mut_lock (s : ArcData) : Option ArcData :=
  if s.weak_count = 1 then some { s with weak_count := USIZE_MAX } else none

/-- `Arc::get_mut` (arc_weak.rs:75-122).  Returns the record state after
the call together with `true` iff the result was `Some(&mut T)`.  On lock
success it reads `strong_count`, stores `weak_count := 1` back
(releasing the lock) on every path, and succeeds iff `strong_count` read 1. -/
def Arc.get_mut (s : ArcData) : ArcData × Bool :=
  match Arc.get_mut_lock s with
  | none => (s, false)
  | some s1 =>
    let is_single := s1.strong_count == 1
    let s2 := { s1 with weak_count := 1 }
    (s2, is_single)

/-- `impl Drop for Weak` (arc_weak.rs:232-244): `fetch_sub(1, Release)` on
`weak_count`; if the pre-decrement value was 1, the allocation record is
released (`drop(Box::from_raw(..))`). -/
def Weak.drop (s : ArcData) : ArcData :=
  let old := s.weak_count
  let s1 := { s with weak_count := (s.weak_count + (USIZE_MOD - 1)) % USIZE_MOD }
  if old = 1 then { s1 with release_count := s1.release_count + 1 } else s1

/-- `impl Drop for Arc` (arc_weak.rs:136-173): `fetch_sub(1, Release)` on
`strong_count`; if the pre-decrement value was 1, the payload is destroyed
(`ManuallyDrop::drop`) and then the implicit weak unit is dropped
(`drop(Weak { ptr })`). -/
def Arc.drop (s : ArcData) : ArcData :=
  let old := s.strong_count
  let s1 := { s with strong_count := (s.strong_count + (USIZE_MOD - 1)) % USIZE_MOD }
  if old = 1 then Weak.drop { s1 with destroy_count := s1.destroy_count + 1 }
  else s1

/-- `Weak::upgrade` (arc_weak.rs:196-218): if the loaded `strong_count` is
0 return `None`; abort if it exceeds `usize::MAX / 2`; otherwise the CAS
installs `strong_count + 1` and a new `Arc` is returned.  The `Bool` is
`true` iff the result was `Some(Arc)`. -/
def Weak.upgrade (s : ArcData) : Res (ArcData × Bool) :=
  if s.strong_count = 0 then Res.ok (s, false)
  else if s.strong_count > USIZE_MAX / 2 then Res.abort
  else Res.ok ({ s with strong_count := (s.strong_count + 1) % USIZE_MOD }, true)

/-- `impl Clone for Weak` (arc_weak.rs:221-230): `fetch_add(1, Relaxed)` on
`weak_count`; abort if the pre-increment value exceeds `usize::MAX / 2`. -/
def Weak.clone (s : ArcData) : Res ArcData :=
  let old := s.weak_count
  let s1 := { s with weak_count := (s.weak_count + 1) % USIZE_MOD }
  if old > USIZE_MAX / 2 then Res.abort else Res.ok s1

end ArcWeak

namespace ArcOnly

/-- The allocation record of `arc_only.rs`:
`struct ArcData<T> { data: T, count: AtomicUsize }`.  Here the payload and
the record live and die together: `Drop` frees the whole box, which also
runs the payload destructor, counted by `destroy_count`. -/
structure ArcData where
  data : Nat
  count : Nat
  destroy_count : Nat
deriving Repr, DecidableEq

/-- `Arc::new(t)` of arc_only.rs: fresh record with `count = 1`. -/
def Arc.new (t : Nat) : ArcData :=
  { data := t, count := 1, destroy_count := 0 }

/-- `impl Clone for Arc` of arc_only.rs (lines 52-57): a bare
`fetch_add(1, Relaxed)` on `count` with no overflow check of any kind. -/
def Arc.clone (s : ArcData) : ArcData :=
  { s with count := (s.count + 1) % ArcRs.USIZE_MOD }

/-- `Arc::get_mut` of arc_only.rs (lines 39-49): succeeds iff the loaded
`count` is 1; no state is modified either way. -/
def Arc.get_mut (s : ArcData) : Bool :=
  s.count == 1

/-- `impl Drop for Arc` of arc_only.rs (lines 59-83): `fetch_sub(1,
Release)` on `count`; if the pre-decrement value was 1, the box (payload
included) is dropped. -/
def Arc.drop (s : ArcData) : ArcData :=
  let old := s.count
  let s1 := { s with count := (s.count + (ArcRs.USIZE_MOD - 1)) % ArcRs.USIZE_MOD }
  if old = 1 then { s1 with destroy_count := s1.destroy_count + 1 } else s1

end ArcOnly

namespace ArcWeak

/-!
Handle-level operational semantics.  A system state pairs the shared
record with the number of live strong handles (`hs`) and live weak
handles (`hw`); an operation may only be invoked through a live handle of
the right kind.  `execOp` returns `none` when the operation is not
invocable (no handle of that kind exists), when the process aborts, or
when the single sequential step would busy-wait (sentinel observed) —
in each of those cases there is no successor state to reason about.
-/

/-- A system state: the shared allocation record plus the number of live
strong handles (`hs`) and live weak handles (`hw`). -/
structure Sys where
  rc : ArcData
  hs : Nat
  hw : Nat
deriving Repr, DecidableEq

/-- The operations a client can invoke through its handles. -/
inductive Op where
  | sclone
  | sdrop
  | sdowngrade
  | sgetmut
  | wclone
  | wdrop
  | wupgrade
deriving Repr, DecidableEq

/-- One client step: dispatch `op` through a live handle.  Strong-handle
operations require `hs > 0`, weak-handle operations require `hw > 0`. -/
def execOp (σ : Sys) (op : Op) : Option Sys :=
  match op with
  | Op.sclone =>
    if σ.hs = 0 then none else
      match Arc.clone σ.rc with
      | Res.ok r => some ⟨r, σ.hs + 1, σ.hw⟩
      | _ => none
  | Op.sdrop =>
    if σ.hs = 0 then none else some ⟨Arc.drop σ.rc, σ.hs - 1, σ.hw⟩
  | Op.sdowngrade =>
    if σ.hs = 0 then none else
      match Arc.downgrade σ.rc with
      | Res.ok r => some ⟨r, σ.hs, σ.hw + 1⟩
      | _ => none
  | Op.sgetmut =>
    if σ.hs = 0 then none else some ⟨(Arc.get_mut σ.rc).1, σ.hs, σ.hw⟩
  | Op.wclone =>
    if σ.hw = 0 then none else
      match Weak.clone σ.rc with
      | Res.ok r => some ⟨r, σ.hs, σ.hw + 1⟩
      | _ => none
  | Op.wdrop =>
    if σ.hw = 0 then none else some ⟨Weak.drop σ.rc, σ.hs, σ.hw - 1⟩
  | Op.wupgrade =>
    if σ.hw = 0 then none else
      match Weak.upgrade σ.rc with
      | Res.ok (r, true) => some ⟨r, σ.hs + 1, σ.hw⟩
      | Res.ok (r, false) => some ⟨r, σ.hs, σ.hw⟩
      | _ => none

/-- Run a list of operations from a state. -/
def execOps (σ : Sys) (ops : List Op) : Option Sys :=
  match ops with
  | [] => some σ
  | op :: rest =>
    match execOp σ op with
    | some σ1 => execOps σ1 rest
    | none => none

/-- Initial system state: `Arc::new(v)` produced the single strong handle. -/
def Sys.init (v : Nat) : Sys := ⟨Arc.new v, 1, 0⟩

/-- A system state with `n` strong handles and no weak handles, as reached
from `Sys.init v` by `n - 1` clones: `strong_count = n`, `weak_count = 1`. -/
def Sys.initN (v n : Nat) : Sys :=
  ⟨{ data := v, strong_count := n, weak_count := 1
     destroy_count := 0, release_count := 0 }, n, 0⟩

/-- The system invariant tying the two counters to the live handles:
`strong_count` equals the number of live strong handles; `weak_count`
equals the number of live weak handles plus one unit for the set of all
strong handles while any exists; the payload has been destroyed exactly
once iff no strong handle remains; the allocation has been released
exactly once iff no handle of either kind remains.  The counter bounds
record that every guarded increment keeps the counters at most 2^63. -/
def Inv (σ : Sys) : Prop :=
  σ.rc.strong_count = σ.hs ∧
  (σ.hs = 0 → σ.rc.weak_count = σ.hw ∧ σ.rc.destroy_count = 1) ∧
  (σ.hs ≠ 0 → σ.rc.weak_count = σ.hw + 1 ∧ σ.rc.destroy_count = 0) ∧
  σ.rc.strong_count ≤ 2 ^ 63 ∧
  σ.rc.weak_count ≤ 2 ^ 63 ∧
  (σ.hs = 0 ∧ σ.hw = 0 → σ.rc.release_count = 1) ∧
  (¬(σ.hs = 0 ∧ σ.hw = 0) → σ.rc.release_count = 0)

theorem inv_init (v : Nat) : Inv (Sys.init v) := by
  unfold Inv Sys.init Arc.new
  dsimp only
  omega

theorem inv_initN (v n : Nat) (h1 : 1 ≤ n) (h2 : n ≤ 2 ^ 63) :
    Inv (Sys.initN v n) := by
  unfold Inv Sys.initN
  dsimp only
  omega

/-- Every step of the handle-level semantics preserves the invariant. -/
theorem inv_step (σ σ' : Sys) (op : Op) (hinv : Inv σ)
    (h : execOp σ op = some σ') : Inv σ' := by
  obtain ⟨⟨d, sc, wc, dc, rl⟩, hs, hw⟩ := σ
  obtain ⟨hsc, hz, hnz, hscb, hwcb, hr1, hr0⟩ := hinv
  dsimp only at hsc hz hnz hscb hwcb hr1 hr0
  cases op <;>
    simp only [execOp, Arc.clone, Arc.drop, Arc.downgrade, Arc.get_mut,
      Arc.get_mut_lock, Weak.clone, Weak.drop, Weak.upgrade,
      USIZE_MAX, USIZE_MOD] at h <;>
    split_ifs at h <;>
    first
      | exact Option.noConfusion h
      | (injection h with h
         subst h
         unfold Inv
         dsimp only
         try simp only [reduceIte]
         omega)

/-- Running any list of operations preserves the invariant. -/
theorem inv_execOps (σ σ' : Sys) (ops : List Op) (hinv : Inv σ)
    (h : execOps σ ops = some σ') : Inv σ' := by
  induction ops generalizing σ with
  | nil =>
    simp only [execOps] at h
    exact (Option.some.inj h) ▸ hinv
  | cons op rest ih =>
    simp only [execOps] at h
    cases hstep : execOp σ op with
    | none => rw [hstep] at h; exact Option.noConfusion h
    | some σ1 =>
      rw [hstep] at h
      exact ih σ1 (inv_step σ σ1 op hinv hstep) h

/-- `Arc::get_mut` succeeds exactly when it observes `weak_count = 1`
(the lock CAS succeeds) and then `strong_count = 1`. -/
theorem get_mut_success_iff (s : ArcData) :
    (Arc.get_mut s).2 = true ↔ s.weak_count = 1 ∧ s.strong_count = 1 := by
  unfold Arc.get_mut Arc.get_mut_lock
  split_ifs with h1
  · dsimp only
    simp [h1]
  · simp [h1]

/-- Claim C1: for every record state reachable by any sequence of handle
operations, `Strong.get_mut` returns a mutable view iff exactly one strong
handle and zero weak handles exist; in the full variant this is the case
iff `weak_count = 1` (the sentinel transition succeeds) and
`strong_count = 1`; in the strong-only variant `get_mut` succeeds iff
`count = 1`.  Otherwise it returns `None`. -/
theorem get_mut_iff_unique_handles (v : Nat) (ops : List Op) (σ : Sys)
    (h : execOps (Sys.init v) ops = some σ) :
    ((Arc.get_mut σ.rc).2 = true ↔ σ.hs = 1 ∧ σ.hw = 0) ∧
    ((Arc.get_mut σ.rc).2 = true ↔ σ.rc.weak_count = 1 ∧ σ.rc.strong_count = 1) ∧
    (∀ t : ArcOnly.ArcData, ArcOnly.Arc.get_mut t = true ↔ t.count = 1) := by
  obtain ⟨hsc, hz, hnz, hscb, hwcb, hr1, hr0⟩ :=
    inv_execOps (Sys.init v) σ ops (inv_init v) h
  refine ⟨?_, ?_, ?_⟩
  · rw [get_mut_success_iff]
    omega
  · exact get_mut_success_iff σ.rc
  · intro t
    unfold ArcOnly.Arc.get_mut
    simp

theorem get_mut_iff_unique_handles_witness :
    ((Arc.get_mut (Sys.init 7).rc).2 = true ↔ (Sys.init 7).hs = 1 ∧ (Sys.init 7).hw = 0) ∧
    ((Arc.get_mut (Sys.init 7).rc).2 = true ↔
      (Sys.init 7).rc.weak_count = 1 ∧ (Sys.init 7).rc.strong_count = 1) ∧
    (∀ t : ArcOnly.ArcData, ArcOnly.Arc.get_mut t = true ↔ t.count = 1) :=
  get_mut_iff_unique_handles 7 [] (Sys.init 7) rfl

/-- Claim C2: along every sequence of `Strong.clone` / `Strong.drop`
operations from `n` starting strong handles, the payload is destroyed
exactly once, at the drop whose pre-decrement `strong_count` was 1 (the
last strong drop), and never before: while strong handles remain the
destructor has run 0 times, once none remain it has run exactly once;
`Arc::drop` runs the destructor exactly when the pre-decrement
`strong_count` is 1, and `Arc::clone` never runs it. -/
theorem strong_lifecycle_destroys_once (v n : Nat) (h1 : 1 ≤ n)
    (h2 : n ≤ 2 ^ 63) (ops : List Op)
    (_hops : ∀ op ∈ ops, op = Op.sclone ∨ op = Op.sdrop) (σ : Sys)
    (h : execOps (Sys.initN v n) ops = some σ) :
    (σ.hs = 0 → σ.rc.destroy_count = 1) ∧
    (σ.hs ≠ 0 → σ.rc.destroy_count = 0) ∧
    (∀ s : ArcData, s.strong_count = 1 →
      (Arc.drop s).destroy_count = s.destroy_count + 1) ∧
    (∀ s : ArcData, s.strong_count ≠ 1 →
      (Arc.drop s).destroy_count = s.destroy_count) ∧
    (∀ s s' : ArcData, Arc.clone s = Res.ok s' →
      s'.destroy_count = s.destroy_count) := by
  obtain ⟨hsc, hz, hnz, hscb, hwcb, hr1, hr0⟩ :=
    inv_execOps (Sys.initN v n) σ ops (inv_initN v n h1 h2) h
  refine ⟨by omega, by omega, ?_, ?_, ?_⟩
  · intro s hone
    unfold Arc.drop Weak.drop
    rw [if_pos hone]
    dsimp only
    split_ifs <;> rfl
  · intro s hone
    unfold Arc.drop
    rw [if_neg hone]
  · intro s s' hc
    unfold Arc.clone at hc
    dsimp only at hc
    split_ifs at hc
    all_goals first
      | exact Res.noConfusion hc
      | (injection hc with hc
         subst hc
         rfl)

theorem strong_lifecycle_destroys_once_witness :
    (let σ := Sys.mk ⟨5, 0, 0, 1, 1⟩ 0 0
     (σ.hs = 0 → σ.rc.destroy_count = 1) ∧
     (σ.hs ≠ 0 → σ.rc.destroy_count = 0) ∧
     (∀ s : ArcData, s.strong_count = 1 →
       (Arc.drop s).destroy_count = s.destroy_count + 1) ∧
     (∀ s : ArcData, s.strong_count ≠ 1 →
       (Arc.drop s).destroy_count = s.destroy_count) ∧
     (∀ s s' : ArcData, Arc.clone s = Res.ok s' →
       s'.destroy_count = s.destroy_count)) :=
  strong_lifecycle_destroys_once 5 2 (by decide) (by decide)
    [Op.sdrop, Op.sclone, Op.sdrop, Op.sdrop] (by decide)
    (Sys.mk ⟨5, 0, 0, 1, 1⟩ 0 0) (by decide)

/-- Claim C3: along every sequence of handle operations from construction,
the allocation record is released exactly once, at the `weak_count`
decrement whose pre-decrement value was 1, and only after the payload has
already been destroyed: while any handle remains the record has been
released 0 times; once no handle of either kind remains it has been
released exactly once and the payload destructor has already run;
`Weak::drop` releases the record exactly when the pre-decrement
`weak_count` is 1. -/
theorem weak_lifecycle_releases_once (v : Nat) (ops : List Op) (σ : Sys)
    (h : execOps (Sys.init v) ops = some σ) :
    (σ.hs = 0 ∧ σ.hw = 0 → σ.rc.release_count = 1 ∧ σ.rc.destroy_count = 1) ∧
    (¬(σ.hs = 0 ∧ σ.hw = 0) → σ.rc.release_count = 0) ∧
    (σ.rc.release_count = 1 → σ.rc.destroy_count = 1) ∧
    (∀ s : ArcData, s.weak_count = 1 →
      (Weak.drop s).release_count = s.release_count + 1) ∧
    (∀ s : ArcData, s.weak_count ≠ 1 →
      (Weak.drop s).release_count = s.release_count) := by
  obtain ⟨hsc, hz, hnz, hscb, hwcb, hr1, hr0⟩ :=
    inv_execOps (Sys.init v) σ ops (inv_init v) h
  refine ⟨by omega, by omega, by omega, ?_, ?_⟩
  · intro s hone
    unfold Weak.drop
    rw [if_pos hone]
  · intro s hone
    unfold Weak.drop
    rw [if_neg hone]

theorem weak_lifecycle_releases_once_witness :
    (let σ := Sys.mk ⟨3, 0, 0, 1, 1⟩ 0 0
     (σ.hs = 0 ∧ σ.hw = 0 → σ.rc.release_count = 1 ∧ σ.rc.destroy_count = 1) ∧
     (¬(σ.hs = 0 ∧ σ.hw = 0) → σ.rc.release_count = 0) ∧
     (σ.rc.release_count = 1 → σ.rc.destroy_count = 1) ∧
     (∀ s : ArcData, s.weak_count = 1 →
       (Weak.drop s).release_count = s.release_count + 1) ∧
     (∀ s : ArcData, s.weak_count ≠ 1 →
       (Weak.drop s).release_count = s.release_count)) :=
  weak_lifecycle_releases_once 3 [Op.sdowngrade, Op.wdrop, Op.sdrop]
    (Sys.mk ⟨3, 0, 0, 1, 1⟩ 0 0) (by decide)

/-- Claim C6: in every state reachable from `Construct(value)` by any
sequence of clone, drop, downgrade, upgrade and `get_mut` operations,
while at least one strong handle exists, `strong_count ≥ 1` and
`weak_count ≥ 1`. -/
theorem strong_handle_counts_positive (v : Nat) (ops : List Op) (σ : Sys)
    (h : execOps (Sys.init v) ops = some σ) (hlive : 1 ≤ σ.hs) :
    1 ≤ σ.rc.strong_count ∧ 1 ≤ σ.rc.weak_count := by
  obtain ⟨hsc, hz, hnz, hscb, hwcb, hr1, hr0⟩ :=
    inv_execOps (Sys.init v) σ ops (inv_init v) h
  omega

theorem strong_handle_counts_positive_witness :
    1 ≤ (Sys.mk ⟨7, 2, 2, 0, 0⟩ 2 1).rc.strong_count ∧
    1 ≤ (Sys.mk ⟨7, 2, 2, 0, 0⟩ 2 1).rc.weak_count :=
  strong_handle_counts_positive 7 [Op.sclone, Op.sdowngrade]
    (Sys.mk ⟨7, 2, 2, 0, 0⟩ 2 1) (by decide) (by decide)

/-- Claim C4 counterexample: at the record state with
`strong_count = 2^63` (nonzero, and reachable by repeated cloning without
any abort, since a clone from pre-increment value `2^63 - 1 = usize::MAX/2`
passes the guard), `Weak::upgrade` aborts the process instead of
returning a strong handle, so "upgrade returns `Some` iff `strong_count`
is nonzero" is false as stated. -/
theorem upgrade_nonzero_can_abort :
    (⟨7, 2 ^ 63, 1, 0, 0⟩ : ArcData).strong_count ≠ 0 ∧
    Weak.upgrade ⟨7, 2 ^ 63, 1, 0, 0⟩ = Res.abort := by
  constructor
  · decide
  · unfold Weak.upgrade USIZE_MAX
    norm_num

/-- `Weak::upgrade` at `strong_count = 0` returns `None` with no change. -/
theorem upgrade_zero (s : ArcData) (h : s.strong_count = 0) :
    Weak.upgrade s = Res.ok (s, false) := by
  unfold Weak.upgrade
  rw [if_pos h]

/-- `Weak::upgrade` with `0 < strong_count ≤ usize::MAX / 2` returns a new
handle and increments `strong_count` by exactly 1. -/
theorem upgrade_some (s : ArcData) (h1 : 1 ≤ s.strong_count)
    (h2 : s.strong_count ≤ USIZE_MAX / 2) :
    Weak.upgrade s =
      Res.ok ({ s with strong_count := s.strong_count + 1 }, true) := by
  unfold Weak.upgrade
  rw [if_neg (by omega), if_neg (by omega)]
  have hm : (s.strong_count + 1) % USIZE_MOD = s.strong_count + 1 := by
    unfold USIZE_MOD
    unfold USIZE_MAX at h2
    omega
  rw [hm]

/-- `Weak::upgrade` with `strong_count > usize::MAX / 2` aborts. -/
theorem upgrade_overflow (s : ArcData) (h : USIZE_MAX / 2 < s.strong_count) :
    Weak.upgrade s = Res.abort := by
  unfold Weak.upgrade
  rw [if_neg (by unfold USIZE_MAX at h; omega), if_pos h]

/-- Claim C4, amended: `Weak.upgrade` returns `Some(new strong handle)`
iff `0 < strong_count ≤ usize::MAX / 2`, in which case `strong_count` is
incremented by exactly 1 and nothing else changes; it returns `None` iff
`strong_count` is observed as 0 (leaving the record unchanged); and it
aborts the process iff `strong_count > usize::MAX / 2`. -/
theorem upgrade_cases (s : ArcData) :
    ((∃ s', Weak.upgrade s = Res.ok (s', true)) ↔
      1 ≤ s.strong_count ∧ s.strong_count ≤ USIZE_MAX / 2) ∧
    (Weak.upgrade s = Res.ok (s, false) ↔ s.strong_count = 0) ∧
    (Weak.upgrade s = Res.abort ↔ USIZE_MAX / 2 < s.strong_count) ∧
    (∀ s', Weak.upgrade s = Res.ok (s', true) →
      s'.strong_count = s.strong_count + 1 ∧ s'.weak_count = s.weak_count ∧
      s'.data = s.data ∧ s'.destroy_count = s.destroy_count ∧
      s'.release_count = s.release_count) := by
  have hmax : 0 < USIZE_MAX / 2 := by
    unfold USIZE_MAX
    norm_num
  by_cases h0 : s.strong_count = 0
  · rw [upgrade_zero s h0]
    refine ⟨?_, ?_, ?_, ?_⟩
    · constructor
      · rintro ⟨s', hc⟩
        simp at hc
      · rintro ⟨hge, -⟩
        omega
    · simp [h0]
    · constructor
      · intro hc
        exact Res.noConfusion hc
      · intro hc
        omega
    · intro s' hc
      simp at hc
  · by_cases hov : USIZE_MAX / 2 < s.strong_count
    · rw [upgrade_overflow s hov]
      refine ⟨?_, ?_, ?_, ?_⟩
      · constructor
        · rintro ⟨s', hc⟩
          exact Res.noConfusion hc
        · rintro ⟨-, hle⟩
          omega
      · constructor
        · intro hc
          exact Res.noConfusion hc
        · intro hc
          exact absurd hc h0
      · simp [hov]
      · intro s' hc
        exact Res.noConfusion hc
    · rw [upgrade_some s (by omega) (by omega)]
      refine ⟨?_, ?_, ?_, ?_⟩
      · constructor
        · intro
          exact ⟨by omega, by omega⟩
        · intro
          exact ⟨_, rfl⟩
      · constructor
        · intro hc
          simp at hc
        · intro hc
          exact absurd hc h0
      · constructor
        · intro hc
          exact Res.noConfusion hc
        · intro hc
          exact absurd hc hov
      · intro s' hc
        simp only [Res.ok.injEq, Prod.mk.injEq, and_true] at hc
        subst hc
        exact ⟨rfl, rfl, rfl, rfl, rfl⟩

theorem upgrade_cases_witness :
    Weak.upgrade ⟨7, 0, 1, 0, 0⟩ = Res.ok (⟨7, 0, 1, 0, 0⟩, false) :=
  (upgrade_cases ⟨7, 0, 1, 0, 0⟩).2.1.mpr rfl

/-- Claim C5 counterexample: in the basic strong-only variant
(arc_only.rs), `clone` from the pre-increment count `2^63`, which exceeds
`usize::MAX / 2`, does not abort: it has no overflow check at all and
simply returns a new handle with the count incremented. -/
theorem arc_only_clone_no_overflow_guard :
    USIZE_MAX / 2 < (⟨7, 2 ^ 63, 0⟩ : ArcOnly.ArcData).count ∧
    ArcOnly.Arc.clone ⟨7, 2 ^ 63, 0⟩ = ⟨7, 2 ^ 63 + 1, 0⟩ := by
  constructor
  · unfold USIZE_MAX
    norm_num
  · unfold ArcOnly.Arc.clone USIZE_MOD
    norm_num

/-- Claim C5, amended: in the full strong/weak variant, `Strong.clone`
aborts the process iff the pre-increment `strong_count` exceeds
`usize::MAX / 2`, and otherwise returns a new strong handle with
`strong_count` incremented by 1; the basic strong-only variant's `clone`
performs an unguarded wrapping increment of `count` and never aborts. -/
theorem clone_overflow_cases (s : ArcData) (t : ArcOnly.ArcData) :
    (Arc.clone s = Res.abort ↔ USIZE_MAX / 2 < s.strong_count) ∧
    (s.strong_count ≤ USIZE_MAX / 2 →
      Arc.clone s = Res.ok { s with strong_count := s.strong_count + 1 }) ∧
    (ArcOnly.Arc.clone t).count = (t.count + 1) % USIZE_MOD ∧
    (ArcOnly.Arc.clone t).data = t.data ∧
    (ArcOnly.Arc.clone t).destroy_count = t.destroy_count := by
  refine ⟨?_, ?_, rfl, rfl, rfl⟩
  · unfold Arc.clone
    dsimp only
    split_ifs with hov
    · simp [hov]
    · simp [hov]
  · intro hle
    unfold Arc.clone
    dsimp only
    rw [if_neg (by omega)]
    have hm : (s.strong_count + 1) % USIZE_MOD = s.strong_count + 1 := by
      unfold USIZE_MOD
      unfold USIZE_MAX at hle
      omega
    rw [hm]

theorem clone_overflow_cases_witness :
    Arc.clone ⟨7, 1, 1, 0, 0⟩ = Res.ok ⟨7, 2, 1, 0, 0⟩ :=
  (clone_overflow_cases ⟨7, 1, 1, 0, 0⟩ ⟨0, 0, 0⟩).2.1 (by decide)

/-- Claim C7: for every record state in which `weak_count` is not the
sentinel, `Arc::downgrade` increments `weak_count` by exactly 1 and
returns a new weak handle on the same record, except that it aborts the
process when the pre-increment `weak_count` exceeds `usize::MAX / 2`;
while the observed value is the sentinel it spins, retrying without
modifying any counter (the `spin` outcome carries no state change). -/
theorem downgrade_cases (s : ArcData) :
    (s.weak_count = USIZE_MAX → Arc.downgrade s = Res.spin) ∧
    (s.weak_count ≠ USIZE_MAX → USIZE_MAX / 2 < s.weak_count →
      Arc.downgrade s = Res.abort) ∧
    (s.weak_count ≤ USIZE_MAX / 2 →
      Arc.downgrade s = Res.ok { s with weak_count := s.weak_count + 1 }) := by
  refine ⟨?_, ?_, ?_⟩
  · intro hm
    unfold Arc.downgrade
    rw [if_pos hm]
  · intro hm hov
    unfold Arc.downgrade
    rw [if_neg hm, if_pos hov]
  · intro hle
    have hm : s.weak_count ≠ USIZE_MAX := by
      unfold USIZE_MAX at *
      omega
    unfold Arc.downgrade
    rw [if_neg hm, if_neg (by omega)]
    have h2 : (s.weak_count + 1) % USIZE_MOD = s.weak_count + 1 := by
      unfold USIZE_MOD
      unfold USIZE_MAX at hle
      omega
    rw [h2]

theorem downgrade_cases_witness :
    Arc.downgrade ⟨7, 1, 1, 0, 0⟩ = Res.ok ⟨7, 1, 2, 0, 0⟩ :=
  (downgrade_cases ⟨7, 1, 1, 0, 0⟩).2.2 (by decide)

/-- Claim C8: whenever `get_mut`'s initial transition of `weak_count`
from 1 to the sentinel succeeds (the lock CAS returns `some`), the
intermediate state holds the sentinel, but by the time `get_mut` returns
`weak_count` is 1 again — the final record state is the same on the
success path and the `strong_count ≠ 1` failure path, as it does not
depend on the outcome flag — so the sentinel never persists; and
`get_mut` never modifies `strong_count` on any path. -/
theorem get_mut_restores_weak_count (s : ArcData) :
    (∀ s1, Arc.get_mut_lock s = some s1 →
      s1.weak_count = USIZE_MAX ∧
      (Arc.get_mut s).1.weak_count = 1 ∧
      (Arc.get_mut s).1.weak_count ≠ USIZE_MAX) ∧
    (Arc.get_mut s).1.strong_count = s.strong_count := by
  constructor
  · intro s1 hlock
    unfold Arc.get_mut_lock at hlock
    split_ifs at hlock with h1
    · injection hlock with hlock
      subst hlock
      unfold Arc.get_mut Arc.get_mut_lock
      rw [if_pos h1]
      refine ⟨rfl, rfl, ?_⟩
      show (1 : Nat) ≠ USIZE_MAX
      decide
  · unfold Arc.get_mut Arc.get_mut_lock
    split_ifs <;> rfl

theorem get_mut_restores_weak_count_witness :
    ((⟨7, 1, USIZE_MAX, 0, 0⟩ : ArcData).weak_count = USIZE_MAX ∧
     (Arc.get_mut ⟨7, 1, 1, 0, 0⟩).1.weak_count = 1 ∧
     (Arc.get_mut ⟨7, 1, 1, 0, 0⟩).1.weak_count ≠ USIZE_MAX) :=
  (get_mut_restores_weak_count ⟨7, 1, 1, 0, 0⟩).1 ⟨7, 1, USIZE_MAX, 0, 0⟩ rfl

/-- Claim C9: each counter operation touches only its own counter and
never the payload: `Strong.clone` and a successful `Weak.upgrade` change
only `strong_count` (by one wrapping increment), leaving `weak_count`,
the payload value and both lifecycle events untouched; `Arc::downgrade`
and `Weak.clone` change only `weak_count`, leaving `strong_count`, the
payload value and both lifecycle events untouched. -/
theorem counter_ops_frame (s : ArcData) :
    (∀ s', Arc.clone s = Res.ok s' →
      s'.weak_count = s.weak_count ∧ s'.data = s.data ∧
      s'.destroy_count = s.destroy_count ∧
      s'.release_count = s.release_count ∧
      s'.strong_count = (s.strong_count + 1) % USIZE_MOD) ∧
    (∀ s', Weak.upgrade s = Res.ok (s', true) →
      s'.weak_count = s.weak_count ∧ s'.data = s.data ∧
      s'.destroy_count = s.destroy_count ∧
      s'.release_count = s.release_count ∧
      s'.strong_count = (s.strong_count + 1) % USIZE_MOD) ∧
    (∀ s', Arc.downgrade s = Res.ok s' →
      s'.strong_count = s.strong_count ∧ s'.data = s.data ∧
      s'.destroy_count = s.destroy_count ∧
      s'.release_count = s.release_count ∧
      s'.weak_count = (s.weak_count + 1) % USIZE_MOD) ∧
    (∀ s', Weak.clone s = Res.ok s' →
      s'.strong_count = s.strong_count ∧ s'.data = s.data ∧
      s'.destroy_count = s.destroy_count ∧
      s'.release_count = s.release_count ∧
      s'.weak_count = (s.weak_count + 1) % USIZE_MOD) := by
  refine ⟨?_, ?_, ?_, ?_⟩
  · intro s' hc
    unfold Arc.clone at hc
    dsimp only at hc
    split_ifs at hc
    all_goals first
      | exact Res.noConfusion hc
      | (injection hc with hc
         subst hc
         exact ⟨rfl, rfl, rfl, rfl, rfl⟩)
  · intro s' hc
    unfold Weak.upgrade at hc
    split_ifs at hc
    all_goals first
      | exact Res.noConfusion hc
      | (injection hc with hc
         injection hc with hc1 hc2
         first
           | exact Bool.noConfusion hc2
           | (subst hc1
              exact ⟨rfl, rfl, rfl, rfl, rfl⟩))
  · intro s' hc
    unfold Arc.downgrade at hc
    split_ifs at hc
    all_goals first
      | exact Res.noConfusion hc
      | (injection hc with hc
         subst hc
         exact ⟨rfl, rfl, rfl, rfl, rfl⟩)
  · intro s' hc
    unfold Weak.clone at hc
    dsimp only at hc
    split_ifs at hc
    all_goals first
      | exact Res.noConfusion hc
      | (injection hc with hc
         subst hc
         exact ⟨rfl, rfl, rfl, rfl, rfl⟩)

theorem counter_ops_frame_witness :
    (⟨7, 2, 1, 0, 0⟩ : ArcData).weak_count = (⟨7, 1, 1, 0, 0⟩ : ArcData).weak_count ∧
    (⟨7, 2, 1, 0, 0⟩ : ArcData).data = (⟨7, 1, 1, 0, 0⟩ : ArcData).data ∧
    (⟨7, 2, 1, 0, 0⟩ : ArcData).destroy_count = (⟨7, 1, 1, 0, 0⟩ : ArcData).destroy_count ∧
    (⟨7, 2, 1, 0, 0⟩ : ArcData).release_count = (⟨7, 1, 1, 0, 0⟩ : ArcData).release_count ∧
    (⟨7, 2, 1, 0, 0⟩ : ArcData).strong_count =
      ((⟨7, 1, 1, 0, 0⟩ : ArcData).strong_count + 1) % USIZE_MOD :=
  (counter_ops_frame ⟨7, 1, 1, 0, 0⟩).1 ⟨7, 2, 1, 0, 0⟩ (by decide)

/-- Claim C10: for every record state with `strong_count = 0`,
`Weak.upgrade` returns `None` leaving the record (both counters included)
unchanged, and in particular it never reaches the overflow-abort path,
because the zero check precedes the overflow check on each iteration. -/
theorem upgrade_on_zero_strong (s : ArcData) (h : s.strong_count = 0) :
    Weak.upgrade s = Res.ok (s, false) ∧ Weak.upgrade s ≠ Res.abort := by
  have hz := upgrade_zero s h
  refine ⟨hz, ?_⟩
  rw [hz]
  exact fun hfalse => Res.noConfusion hfalse

theorem upgrade_on_zero_strong_witness :
    Weak.upgrade ⟨9, 0, 3, 1, 0⟩ = Res.ok (⟨9, 0, 3, 1, 0⟩, false) ∧
    Weak.upgrade ⟨9, 0, 3, 1, 0⟩ ≠ Res.abort :=
  upgrade_on_zero_strong ⟨9, 0, 3, 1, 0⟩ rfl

end ArcWeak

end ArcRs
